import Mathlib

/-!
# Area-of-the-Land: the map component's geometry logic

A shallow embedding of `src/app/components/MapComponent.jsx` (component `LeafletMap`) as it is
mounted by `src/app/page.js`.

Modelling conventions.

* A JavaScript number is a rational (`Num`).  The handlers only copy coordinates and compare
  them with `===`; on finite numbers `===` is equality.  `NaN` coordinates are outside the model.
* The ring `polygonCoordinates` is an array of `[lat, lon]` arrays.  `calculateArea` compares two
  of those inner arrays with `!==`, which is object identity, so every inner array carries its
  identity (`Vertex.ref`).  Arrays built by `map` are freshly allocated: they take their identities
  from the allocation counter `State.nextRef`.
* The state is the React state `data` of the page (the point store) and the React state
  `polygonCoordinates` of the component.
* The component reads the prop `setData` (line 9).  The page mounts it as
  `<DynamicMap data={data} />` (`page.js`, line 235), so the prop is `undefined` and the call
  `setData(newData)` throws a `TypeError`; the other value of `SetDataProp` is a state setter.
* The draw listeners are registered once (lines 41-76, dependency `[mapRef.current]`), so a
  handler reads the `data` of the render that registered it: the handlers take that array as the
  argument `data`, apart from the store held in the state.
* A handler yields the state left by the writes it performed and the uncaught exception, if any,
  that ended it (`Outcome`).
* `turf.polygon` and `turf.area` belong to an external library and are parameters (`Turf`).
-/

namespace AreaOfLand

/-- A JavaScript number holding a finite coordinate or area. -/
abbrev Num := ℚ

/-- An element of `data`: `{ name, lat, lon }`. -/
structure GeoPoint where
  name : String
  lat : Num
  lon : Num
deriving DecidableEq

/-- A Leaflet `LatLng` object: `{ lat, lng }`. -/
structure LatLng where
  lat : Num
  lng : Num
deriving DecidableEq

/-- An inner array `[lat, lon]` of the ring, together with its object identity `ref`. -/
structure Vertex where
  ref : Nat
  lat : Num
  lon : Num
deriving DecidableEq

/-- The array `polygonCoordinates`. -/
abbrev Ring := List Vertex

/-- The values `[lat, lon]` held by a ring, identities forgotten. -/
def ringValues (r : Ring) : List (Num × Num) :=
  r.map fun v => (v.lat, v.lon)

/-- What the handlers read from a marker layer: the field `_latlng`. -/
structure MarkerLayer where
  _latlng : LatLng
deriving DecidableEq

/-- The method `getLatLng()` of a Leaflet marker, which returns the field `_latlng`: lines 137
and 140 read the same coordinate of the same layer. -/
def MarkerLayer.getLatLng (m : MarkerLayer) : LatLng :=
  m._latlng

/-- A layer of a draw event, split the way the handlers split it:
`layer instanceof L.Marker`, `layer instanceof L.Polygon`, or neither.
For a polygon the payload is the result of `getLatLngs()`, an array of rings. -/
inductive Layer where
  | marker (m : MarkerLayer)
  | polygon (getLatLngs : List (List LatLng))
  | other
deriving DecidableEq

/-- The React states: `data` of the page (the point store) and `polygonCoordinates` of the
component, with the allocation counter for fresh arrays. -/
structure State where
  data : List GeoPoint
  polygonCoordinates : Ring
  nextRef : Nat
deriving DecidableEq

/-- The prop `setData` of `LeafletMap`: `undefined`, or a state setter. -/
inductive SetDataProp where
  | undefined
  | setter
deriving DecidableEq

/-- The prop `setData` as the page mounts the component: `<DynamicMap data={data} />` passes
none (`page.js`, line 235). -/
def mountedSetData : SetDataProp :=
  .undefined

/-- The exception thrown by the call `setData(newData)` when `setData` is `undefined`. -/
def setDataTypeError : String :=
  "TypeError: setData is not a function"

/-- What a handler leaves: the state after the writes it performed, and the uncaught exception
that ended it, if any. -/
structure Outcome where
  state : State
  thrown : Option String
deriving DecidableEq

/-- The local state of an `eachLayer` loop: the copy `newData = [...data]`, and the ring as the
calls of `setPolygonCoordinates` made so far leave it. -/
structure Loop where
  newData : List GeoPoint
  polygonCoordinates : Ring
  nextRef : Nat
deriving DecidableEq

/-- The three draw events the component listens to (lines 62-74). -/
inductive DrawEvent where
  | created (layer : Layer)
  | edited (layers : List Layer)
  | deleted (layers : List Layer)
deriving DecidableEq

/-! ## The order table and `data.sort` (lines 10-21) -/

/-- The object `order`: `order[name]`, `none` standing for `undefined`. -/
def order (name : String) : Option Nat :=
  if name = "north" then some 1
  else if name = "north-east" then some 2
  else if name = "east" then some 3
  else if name = "south-east" then some 4
  else if name = "south" then some 5
  else if name = "south-west" then some 6
  else if name = "west" then some 7
  else if name = "north-west" then some 8
  else none

/-- The comparator `(a, b) => order[a.name] - order[b.name]`; `none` stands for `NaN`. -/
def compareFn (a b : GeoPoint) : Option Int :=
  match order a.name, order b.name with
  | some x, some y => some ((x : Int) - (y : Int))
  | _, _ => none

/-- The order `Array.prototype.sort` derives from the comparator: `a` may stay before `b` when the
comparator's result is not positive, a `NaN` result counting as `+0`. -/
def sortLe (a b : GeoPoint) : Prop :=
  match compareFn a b with
  | some v => v ≤ 0
  | none => True

instance sortLeDecidable : DecidableRel sortLe := fun a b => by
  unfold sortLe
  cases compareFn a b <;> infer_instance

/-- The statement `data.sort(...)`.  ECMAScript fixes the result of a stable sort whenever the
comparator is consistent; it is computed here by a stable insertion sort. -/
def sortData (data : List GeoPoint) : List GeoPoint :=
  data.insertionSort sortLe

/-! ## Array primitives -/

/-- The method `Array.prototype.findIndex`: index of the first element satisfying `p`, or `-1`. -/
def findIndex {α : Type} (p : α → Bool) (l : List α) : Int :=
  if l.findIdx p < l.length then (l.findIdx p : Int) else -1

/-- The method `Array.prototype.splice(start, deleteCount)` with no inserted items: a negative
`start` counts from the end of the array. -/
def splice {α : Type} (l : List α) (start : Int) (deleteCount : Nat) : List α :=
  let len : Int := l.length
  let actualStart : Nat :=
    if start < 0 then (max (len + start) 0).toNat else (min start len).toNat
  let actualDeleteCount : Nat := min deleteCount (l.length - actualStart)
  l.take actualStart ++ l.drop (actualStart + actualDeleteCount)

/-- The expression `points.map((item) => [item.lat, item.lon])`, values only. -/
def fromPoints (points : List GeoPoint) : List (Num × Num) :=
  points.map fun item => (item.lat, item.lon)

/-- Allocation of the inner arrays of a mapped array: consecutive fresh identities from `base`. -/
def mkRing (base : Nat) : List (Num × Num) → Ring
  | [] => []
  | (a, b) :: rest => ⟨base, a, b⟩ :: mkRing (base + 1) rest

/-! ## `calculateArea` (lines 93-107) -/

/-- The two functions of the external library turf used by `calculateArea`. -/
structure Turf (Poly : Type) where
  polygon : List Ring → Except String Poly
  area : Poly → Num

/-- The close step (lines 95-100): the array after
`if (coordinates.length > 0 && coordinates[0] !== coordinates[coordinates.length - 1])
coordinates.push(coordinates[0])`. -/
def closeRing (coordinates : Ring) : Ring :=
  if coordinates.length > 0 ∧
      (coordinates[0]?).map Vertex.ref ≠ (coordinates[coordinates.length - 1]?).map Vertex.ref
  then coordinates ++ (coordinates[0]?).toList
  else coordinates

/-- The function `calculateArea`: the returned number (or the exception thrown by turf) and the
argument array as the in-place `push` leaves it. -/
def calculateArea {Poly : Type} (T : Turf Poly) (coordinates : Ring) :
    Except String Num × Ring :=
  let coordinates := closeRing coordinates
  if coordinates.length > 2 then
    ((T.polygon [coordinates]).map T.area, coordinates)
  else
    (.ok 0, coordinates)

/-! ## The draw-event handlers (lines 116-170) -/

/-- The expression `layer.getLatLngs()[0].map((latlng) => [latlng.lat, latlng.lng])`: the new
ring and allocation counter, or `none` when `getLatLngs()[0]` is `undefined` and `.map` throws. -/
def polygonRing (nextRef : Nat) (getLatLngs : List (List LatLng)) : Option (Ring × Nat) :=
  match getLatLngs[0]? with
  | none => none
  | some ring0 =>
    some (mkRing nextRef (ring0.map fun latlng => (latlng.lat, latlng.lng)),
      nextRef + ring0.length)

/-- The exception of `undefined.map(...)`. -/
def mapTypeError : String :=
  "TypeError: Cannot read properties of undefined (reading map)"

/-- The handler `handleCreated` applied to `e.layer`. -/
def handleCreated (setData : SetDataProp) (data : List GeoPoint) (s : State) (layer : Layer) :
    Outcome :=
  match layer with
  | .marker m =>
    let newMarker : GeoPoint :=
      { name := "point" ++ toString (data.length + 1)
        lat := m.getLatLng.lat
        lon := m.getLatLng.lng }
    let newData := data ++ [newMarker]
    match setData with
    | .undefined => ⟨s, some setDataTypeError⟩
    | .setter =>
      ⟨{ data := newData
         polygonCoordinates := mkRing s.nextRef (fromPoints newData)
         nextRef := s.nextRef + newData.length }, none⟩
  | .polygon getLatLngs =>
    match polygonRing s.nextRef getLatLngs with
    | none => ⟨s, some mapTypeError⟩
    | some (latlngs, nextRef) =>
      ⟨{ s with polygonCoordinates := latlngs, nextRef := nextRef }, none⟩
  | .other => ⟨s, none⟩

/-- The method `layers.eachLayer(callback)`: the callback runs on each layer in turn; an
exception of the callback ends the loop and leaves the local state reached before it. -/
def eachLayer (callback : Loop → Layer → Except String Loop) :
    Loop → List Layer → Loop × Option String
  | st, [] => (st, none)
  | st, layer :: rest =>
    match callback st layer with
    | .ok st1 => eachLayer callback st1 rest
    | .error e => (st, some e)

/-- The callback of `layers.eachLayer` in `handleEdited`.  With `index = -1` the assignment
`newData[index] = { ...newData[index], lat, lon: lng }` spreads `undefined` and creates the
property `"-1"` on the array object: no element of the array changes and nothing is thrown. -/
def editLayer (st : Loop) (layer : Layer) : Except String Loop :=
  match layer with
  | .marker m =>
    let index := findIndex
      (fun point => decide (point.lat = m._latlng.lat) && decide (point.lon = m._latlng.lng))
      st.newData
    if index < 0 then .ok st
    else
      match st.newData[index.toNat]? with
      | some point =>
        .ok { st with
              newData := st.newData.set index.toNat
                { point with lat := m.getLatLng.lat, lon := m.getLatLng.lng } }
      | none => .ok st
  | .polygon getLatLngs =>
    match polygonRing st.nextRef getLatLngs with
    | none => .error mapTypeError
    | some (latlngs, nextRef) =>
      .ok { st with polygonCoordinates := latlngs, nextRef := nextRef }
  | .other => .ok st

/-- The two final statements shared by `handleEdited` and `handleDeleted`:
`setData(newData); setPolygonCoordinates(newData.map((item) => [item.lat, item.lon]))`.
With `setData` undefined the first throws and the second is not reached. -/
def finish (setData : SetDataProp) (s : State) (st : Loop) : Outcome :=
  match setData with
  | .undefined =>
    ⟨{ data := s.data, polygonCoordinates := st.polygonCoordinates, nextRef := st.nextRef },
      some setDataTypeError⟩
  | .setter =>
    ⟨{ data := st.newData
       polygonCoordinates := mkRing st.nextRef (fromPoints st.newData)
       nextRef := st.nextRef + st.newData.length }, none⟩

/-- The handler `handleEdited` applied to the layers of `e.layers` in iteration order. -/
def handleEdited (setData : SetDataProp) (data : List GeoPoint) (s : State)
    (layers : List Layer) : Outcome :=
  match eachLayer editLayer ⟨data, s.polygonCoordinates, s.nextRef⟩ layers with
  | (st, some e) =>
    ⟨{ data := s.data, polygonCoordinates := st.polygonCoordinates, nextRef := st.nextRef },
      some e⟩
  | (st, none) => finish setData s st

/-- The callback of `layers.eachLayer` in `handleDeleted`; it throws nothing. -/
def deleteLayer (st : Loop) (layer : Layer) : Loop :=
  match layer with
  | .marker m =>
    let index := findIndex
      (fun point => decide (point.lat = m.getLatLng.lat) && decide (point.lon = m.getLatLng.lng))
      st.newData
    { st with newData := splice st.newData index 1 }
  | .polygon _ => { st with polygonCoordinates := [] }
  | .other => st

/-- The handler `handleDeleted` applied to the layers of `e.layers` in iteration order. -/
def handleDeleted (setData : SetDataProp) (data : List GeoPoint) (s : State)
    (layers : List Layer) : Outcome :=
  finish setData s (layers.foldl deleteLayer ⟨data, s.polygonCoordinates, s.nextRef⟩)

/-- The listener of one draw event (lines 62-74). -/
def dispatch (setData : SetDataProp) (data : List GeoPoint) (s : State) : DrawEvent → Outcome
  | .created layer => handleCreated setData data s layer
  | .edited layers => handleEdited setData data s layers
  | .deleted layers => handleDeleted setData data s layers

/-- A finite sequence of draw events, each handled to its end (normal or by an exception) before
the next one: the listeners are the ones registered once, so all of them read the same `data`. -/
def runEvents (setData : SetDataProp) (data : List GeoPoint) (s : State)
    (events : List DrawEvent) : State :=
  events.foldl (fun s1 e => (dispatch setData data s1 e).state) s

/-! ## The canonical sequence of the specification -/

/-- The fixed sequence of the eight canonical directions, as the specification lists it. -/
def canonicalSequence : List String :=
  ["north", "north-east", "east", "south-east", "south", "south-west", "west", "north-west"]

/-- The rank of a point in the order table, `0` when its name has none. -/
def rankOf (p : GeoPoint) : Nat :=
  (order p.name).getD 0

/-- Strict precedence of two names in the order table. -/
def rankLt (a b : String) : Prop :=
  match order a, order b with
  | some x, some y => x < y
  | _, _ => False

instance rankLtDecidable : DecidableRel rankLt := fun a b => by
  unfold rankLt
  cases order a <;> cases order b <;> infer_instance

instance rankLtAntisymm : IsAntisymm String rankLt where
  antisymm a b hab hba := by
    unfold rankLt at hab hba
    cases ha : order a <;> cases hb : order b <;> simp [ha, hb] at hab hba
    omega

/-! ## Sample inputs -/

/-- A store of three captured points, in the order `data.sort` leaves them. -/
def sampleStore : List GeoPoint :=
  [⟨"north", 1, 1⟩, ⟨"east", 2, 2⟩, ⟨"south", 3, 3⟩]

/-- A marker layer resting at `(lat, lng)`. -/
def markerAt (lat lng : Num) : Layer :=
  .marker ⟨⟨lat, lng⟩⟩

/-- The state after the first render of the map on `sampleStore`: the initial ring
`data.map(...)`, closed in place by `calculateArea`. -/
def sampleState : State :=
  ⟨sampleStore, [⟨0, 1, 1⟩, ⟨1, 2, 2⟩, ⟨2, 3, 3⟩, ⟨0, 1, 1⟩], 3⟩

/-- The state after a polygon with vertices `(7,7)`, `(8,8)`, `(9,9)` was drawn on `sampleState`
and the component rendered again. -/
def drawnState : State :=
  ⟨sampleStore, [⟨3, 7, 7⟩, ⟨4, 8, 8⟩, ⟨5, 9, 9⟩, ⟨3, 7, 7⟩], 6⟩

/-! ## Basic facts -/

theorem ringValues_mkRing (l : List (Num × Num)) (base : Nat) :
    ringValues (mkRing base l) = l := by
  induction l generalizing base with
  | nil => rfl
  | cons x rest ih =>
    obtain ⟨a, b⟩ := x
    have h := ih (base + 1)
    simp only [ringValues] at h
    simp [mkRing, ringValues, h]

theorem closeRing_nil : closeRing [] = [] := by
  simp [closeRing]

theorem closeRing_cons_same (x : Vertex) (xs : List Vertex)
    (h : ((x :: xs)[xs.length]?).map Vertex.ref = some x.ref) :
    closeRing (x :: xs) = x :: xs := by
  simp only [closeRing, List.length_cons, Nat.add_sub_cancel]
  rw [if_neg]
  rintro ⟨_, hc⟩
  apply hc
  rw [h]
  simp

theorem closeRing_cons_other (x : Vertex) (xs : List Vertex)
    (h : ((x :: xs)[xs.length]?).map Vertex.ref ≠ some x.ref) :
    closeRing (x :: xs) = x :: (xs ++ [x]) := by
  simp only [closeRing, List.length_cons, Nat.add_sub_cancel]
  rw [if_pos]
  · simp
  · refine ⟨Nat.succ_pos _, ?_⟩
    intro hc
    apply h
    rw [← hc]
    simp

theorem closeRing_closed (x : Vertex) (xs : List Vertex) :
    closeRing (x :: (xs ++ [x])) = x :: (xs ++ [x]) := by
  apply closeRing_cons_same
  have : (x :: (xs ++ [x]))[(xs ++ [x]).length]? = some x := by
    simp [List.getElem?_cons_succ, List.getElem?_append_right]
  rw [this]
  rfl

theorem findIndex_first {α : Type} (p : α → Bool) (l : List α) (i : Nat) (hi : i < l.length)
    (hp : p l[i] = true) (hfirst : ∀ j x, j < i → l[j]? = some x → p x = false) :
    findIndex p l = (i : Int) := by
  have hidx : l.findIdx p = i := by
    rw [List.findIdx_eq hi]
    refine ⟨hp, ?_⟩
    intro j hji
    exact hfirst j _ hji (List.getElem?_eq_getElem (Nat.lt_trans hji hi))
  simp only [findIndex, hidx, hi, if_true]

theorem findIndex_none {α : Type} (p : α → Bool) (l : List α) (h : ∀ x ∈ l, p x = false) :
    findIndex p l = -1 := by
  have hidx : l.findIdx p = l.length := List.findIdx_eq_length.mpr h
  simp [findIndex, hidx]

theorem order_of_mem (n : String) (h : n ∈ canonicalSequence) : ∃ k, order n = some k := by
  simp only [canonicalSequence, List.mem_cons, List.mem_singleton, List.not_mem_nil,
    or_false] at h
  rcases h with rfl | rfl | rfl | rfl | rfl | rfl | rfl | rfl
  · exact ⟨1, by decide⟩
  · exact ⟨2, by decide⟩
  · exact ⟨3, by decide⟩
  · exact ⟨4, by decide⟩
  · exact ⟨5, by decide⟩
  · exact ⟨6, by decide⟩
  · exact ⟨7, by decide⟩
  · exact ⟨8, by decide⟩

theorem order_spec (n : String) (k : Nat) (h : order n = some k) :
    canonicalSequence[k - 1]? = some n := by
  unfold order at h
  split_ifs at h with h1 h2 h3 h4 h5 h6 h7 h8
  all_goals (injection h with h; subst h; subst n; decide)

theorem order_injective (a b : String) (k : Nat) (ha : order a = some k) (hb : order b = some k) :
    a = b := by
  have h1 := order_spec a k ha
  have h2 := order_spec b k hb
  rw [h1] at h2
  exact Option.some.inj h2

theorem sortLe_iff (a b : GeoPoint) (x y : Nat) (ha : order a.name = some x)
    (hb : order b.name = some y) : sortLe a b ↔ x ≤ y := by
  simp only [sortLe, compareFn, ha, hb]
  omega

theorem canonicalSequence_sorted : canonicalSequence.Pairwise rankLt := by
  decide

/-- The call `splice(-1, 1)` removes the last element of the array. -/
theorem splice_minus_one {α : Type} (l : List α) : splice l (-1) 1 = l.dropLast := by
  cases h : l.length with
  | zero =>
    have : l = [] := List.length_eq_zero.mp h
    subst this
    simp [splice]
  | succ n =>
    have h1 : (max ((l.length : Int) + -1) 0).toNat = n := by
      rw [h]
      push_cast
      omega
    simp only [splice, show ((-1 : Int) < 0) from by decide, if_true, h1]
    have h2 : n + min 1 (l.length - n) = l.length := by omega
    rw [h2, List.drop_length, List.append_nil, List.dropLast_eq_take, h]
    simp

/-- On a store with no point at the marker, the delete callback drops the last point. -/
theorem deleteLayer_miss (st : Loop) (m : MarkerLayer)
    (hmiss : ∀ p ∈ st.newData, ¬ (p.lat = m.getLatLng.lat ∧ p.lon = m.getLatLng.lng)) :
    deleteLayer st (.marker m) = { st with newData := st.newData.dropLast } := by
  have h : findIndex
      (fun point : GeoPoint =>
        decide (point.lat = m.getLatLng.lat) && decide (point.lon = m.getLatLng.lng)) st.newData
        = -1 := by
    apply findIndex_none
    intro x hx
    have := hmiss x hx
    simpa using this
  simp [deleteLayer, h, splice_minus_one]

/-- The sample states are rendered states: the store is sorted and the rings are closed. -/
theorem sampleState_rendered :
    sortData sampleStore = sampleStore ∧
    closeRing (mkRing 0 (fromPoints sampleStore)) = sampleState.polygonCoordinates ∧
    (handleCreated mountedSetData sampleStore sampleState
        (.polygon [[⟨7, 7⟩, ⟨8, 8⟩, ⟨9, 9⟩]])).state =
      ⟨sampleStore, [⟨3, 7, 7⟩, ⟨4, 8, 8⟩, ⟨5, 9, 9⟩], 6⟩ ∧
    closeRing [⟨3, 7, 7⟩, ⟨4, 8, 8⟩, ⟨5, 9, 9⟩] = drawnState.polygonCoordinates := by
  decide

theorem set_getElem_same {α : Type} (l : List α) (k : Nat) (h : k < l.length) :
    l.set k l[k] = l := by
  apply List.ext_getElem (by simp)
  intro n h1 h2
  rw [List.getElem_set]
  split
  · next hk => subst hk; rfl
  · rfl

/-- The callback of `handleEdited` changes nothing on a marker layer: the lookup uses the
coordinate the marker has now, so a point it finds already holds the coordinate written. -/
theorem editLayer_marker_unchanged (st : Loop) (m : MarkerLayer) :
    editLayer st (.marker m) = .ok st := by
  unfold editLayer
  simp only [findIndex, MarkerLayer.getLatLng]
  by_cases h : st.newData.findIdx
      (fun point => decide (point.lat = m._latlng.lat) && decide (point.lon = m._latlng.lng))
      < st.newData.length
  · have hp := List.findIdx_getElem (w := h)
    simp only [Bool.and_eq_true, decide_eq_true_eq] at hp
    have hget := List.getElem?_eq_getElem h
    rw [if_pos h]
    generalize st.newData.findIdx
      (fun point => decide (point.lat = m._latlng.lat) && decide (point.lon = m._latlng.lng))
      = k at h hp hget
    rw [if_neg (by omega)]
    simp only [Int.toNat_ofNat, hget]
    have hpt : (⟨st.newData[k].name, m._latlng.lat, m._latlng.lng⟩ : GeoPoint) =
        st.newData[k] := by
      rw [← hp.1, ← hp.2]
    rw [hpt, set_getElem_same _ _ h]
  · rw [if_neg h]
    simp

/-- With a state setter bound to `setData`, `handleCreated` on a marker appends the point named
`point<n+1>` to the `n` points it reads and sets the ring to the `n+1` pairs. -/
theorem handleCreated_setter_appends (data : List GeoPoint) (s : State) (m : MarkerLayer) :
    (handleCreated .setter data s (.marker m)).thrown = none ∧
    (handleCreated .setter data s (.marker m)).state.data =
      data ++ [⟨"point" ++ toString (data.length + 1), m._latlng.lat, m._latlng.lng⟩] ∧
    (handleCreated .setter data s (.marker m)).state.polygonCoordinates.map
        (fun v => (v.lat, v.lon)) =
      data.map (fun p => (p.lat, p.lon)) ++ [(m._latlng.lat, m._latlng.lng)] := by
  refine ⟨rfl, rfl, ?_⟩
  have h := ringValues_mkRing (fromPoints (data ++
    [⟨"point" ++ toString (data.length + 1), m._latlng.lat, m._latlng.lng⟩])) s.nextRef
  simpa [handleCreated, MarkerLayer.getLatLng, ringValues, fromPoints] using h

/-- As mounted, `handleEdited` never ends normally and never writes the store. -/
theorem handleEdited_mounted_throws (data : List GeoPoint) (s : State) (layers : List Layer) :
    (handleEdited mountedSetData data s layers).thrown ≠ none ∧
    (handleEdited mountedSetData data s layers).state.data = s.data := by
  unfold handleEdited
  rcases eachLayer editLayer ⟨data, s.polygonCoordinates, s.nextRef⟩ layers with ⟨st, _ | e⟩
  · simp [finish, mountedSetData]
  · simp

/-- As mounted, no handler writes the store. -/
theorem dispatch_mounted_store (data : List GeoPoint) (s : State) (e : DrawEvent) :
    (dispatch mountedSetData data s e).state.data = s.data := by
  cases e with
  | created layer =>
    cases layer with
    | marker m => rfl
    | polygon g =>
      simp only [dispatch, handleCreated]
      cases polygonRing s.nextRef g <;> rfl
    | other => rfl
  | edited layers => exact (handleEdited_mounted_throws data s layers).2
  | deleted layers => rfl

/-- A delete loop over polygon layers only empties the ring and keeps `newData`. -/
theorem foldl_deleteLayer_polygons (layers : List Layer) (st : Loop)
    (hpoly : ∀ l ∈ layers, ∃ g, l = Layer.polygon g) :
    (layers.foldl deleteLayer st).newData = st.newData ∧
    (layers ≠ [] → (layers.foldl deleteLayer st).polygonCoordinates = []) ∧
    (layers = [] → (layers.foldl deleteLayer st).polygonCoordinates = st.polygonCoordinates) := by
  induction layers generalizing st with
  | nil => simp
  | cons l rest ih =>
    obtain ⟨g, rfl⟩ := hpoly l (List.mem_cons_self l rest)
    have ih1 := ih { st with polygonCoordinates := [] }
      (fun l1 hl1 => hpoly l1 (List.mem_cons_of_mem _ hl1))
    simp only [List.foldl_cons, deleteLayer]
    refine ⟨ih1.1, ?_, by simp⟩
    intro _
    by_cases hr : rest = []
    · rw [ih1.2.2 hr]
    · exact ih1.2.1 hr

/-! ## Claims -/

/-- C10: the close step of `calculateArea` is idempotent, `close(close(R)) = close(R)` for every
ring `R`; hence a second `calculateArea` on the array left by a first one appends nothing. -/
theorem closeRing_idempotent (R : Ring) :
    closeRing (closeRing R) = closeRing R ∧
      ∀ (Poly : Type) (T : Turf Poly),
        (calculateArea T (calculateArea T R).2).2 = (calculateArea T R).2 := by
  have key : closeRing (closeRing R) = closeRing R := by
    cases R with
    | nil => simp [closeRing_nil]
    | cons x xs =>
      by_cases h : ((x :: xs)[xs.length]?).map Vertex.ref = some x.ref
      · rw [closeRing_cons_same x xs h, closeRing_cons_same x xs h]
      · rw [closeRing_cons_other x xs h, closeRing_closed]
  refine ⟨key, ?_⟩
  intro Poly T
  have h2 : (calculateArea T R).2 = closeRing R := by
    unfold calculateArea
    by_cases hl : (closeRing R).length > 2 <;> simp [hl]
  have h3 : (calculateArea T (closeRing R)).2 = closeRing (closeRing R) := by
    unfold calculateArea
    by_cases hl : (closeRing (closeRing R)).length > 2 <;> simp [hl]
  rw [h2, h3, key]

/-- C1: as the component is mounted, after `handleDeleted` has processed a delete event whose
shapes are polygons (at least one), whatever the store, the `data` read and the current ring,
the ring is the empty array, `calculateArea` on it returns `0`, and the store is the store
before the event. -/
theorem handleDeleted_polygon_clears_ring (data : List GeoPoint) (s : State)
    (layers : List Layer) (hne : layers ≠ [])
    (hpoly : ∀ l ∈ layers, ∃ g, l = Layer.polygon g) :
    (handleDeleted mountedSetData data s layers).state.polygonCoordinates = [] ∧
    (∀ (Poly : Type) (T : Turf Poly),
      calculateArea T (handleDeleted mountedSetData data s layers).state.polygonCoordinates =
        (.ok 0, [])) ∧
    (handleDeleted mountedSetData data s layers).state.data = s.data := by
  have h := foldl_deleteLayer_polygons layers ⟨data, s.polygonCoordinates, s.nextRef⟩ hpoly
  have hring : (handleDeleted mountedSetData data s layers).state.polygonCoordinates = [] := by
    simp only [handleDeleted, finish, mountedSetData]
    exact h.2.1 hne
  refine ⟨hring, ?_, rfl⟩
  intro Poly T
  rw [hring]
  simp [calculateArea, closeRing_nil]

/-- A witness of C1: the polygon drawn on the sample store is deleted. -/
theorem handleDeleted_polygon_clears_ring_witness :
    (handleDeleted mountedSetData sampleStore drawnState
      [.polygon [[⟨7, 7⟩, ⟨8, 8⟩, ⟨9, 9⟩]]]).state.polygonCoordinates = [] ∧
    (∀ (Poly : Type) (T : Turf Poly),
      calculateArea T (handleDeleted mountedSetData sampleStore drawnState
        [.polygon [[⟨7, 7⟩, ⟨8, 8⟩, ⟨9, 9⟩]]]).state.polygonCoordinates = (.ok 0, [])) ∧
    (handleDeleted mountedSetData sampleStore drawnState
      [.polygon [[⟨7, 7⟩, ⟨8, 8⟩, ⟨9, 9⟩]]]).state.data = drawnState.data :=
  handleDeleted_polygon_clears_ring sampleStore drawnState
    [.polygon [[⟨7, 7⟩, ⟨8, 8⟩, ⟨9, 9⟩]]] (by decide)
    (by
      intro l hl
      exact ⟨[[⟨7, 7⟩, ⟨8, 8⟩, ⟨9, 9⟩]], by simpa using hl⟩)

/-- C2 (the code at the failing input): a delete event with a marker at `(5, 5)`, a coordinate of
no stored point, removes the last point of `newData`: `findIndex` returns `-1` and
`splice(-1, 1)` deletes one element counted from the end.  With a setter bound to `setData` the
store loses its last point; as mounted the handler ends with a `TypeError`. -/
theorem handleDeleted_miss_removes_last :
    findIndex (fun point : GeoPoint => decide (point.lat = 5) && decide (point.lon = 5))
        sampleStore = -1 ∧
    splice sampleStore (-1) 1 = [⟨"north", 1, 1⟩, ⟨"east", 2, 2⟩] ∧
    handleDeleted .setter sampleStore ⟨sampleStore, [⟨0, 1, 1⟩, ⟨1, 2, 2⟩, ⟨2, 3, 3⟩], 3⟩
        [markerAt 5 5] =
      ⟨⟨[⟨"north", 1, 1⟩, ⟨"east", 2, 2⟩], [⟨3, 1, 1⟩, ⟨4, 2, 2⟩], 5⟩, none⟩ ∧
    deleteLayer ⟨sampleStore, sampleState.polygonCoordinates, 3⟩ (markerAt 5 5) =
      ⟨[⟨"north", 1, 1⟩, ⟨"east", 2, 2⟩], sampleState.polygonCoordinates, 3⟩ ∧
    handleDeleted mountedSetData sampleStore sampleState [markerAt 5 5] =
      ⟨sampleState, some "TypeError: setData is not a function"⟩ := by
  decide

/-- C3 (the code at the failing input): the marker of the point `east`, stored at `(2, 2)`, was
dragged to `(5, 5)`, so the layer of the edit event holds `(5, 5)`.  The lookup finds no
stored point, and `east` is not moved: as mounted the handler ends with a `TypeError` and the
state is untouched; with a setter bound to `setData` the store written is the old one.  On
every marker layer the callback leaves `newData` as it was. -/
theorem handleEdited_marker_not_moved :
    handleEdited mountedSetData sampleStore sampleState [markerAt 5 5] =
      ⟨sampleState, some "TypeError: setData is not a function"⟩ ∧
    handleEdited .setter sampleStore sampleState [markerAt 5 5] =
      ⟨⟨[⟨"north", 1, 1⟩, ⟨"east", 2, 2⟩, ⟨"south", 3, 3⟩],
        [⟨3, 1, 1⟩, ⟨4, 2, 2⟩, ⟨5, 3, 3⟩], 6⟩, none⟩ ∧
    ∀ (st : Loop) (m : MarkerLayer), editLayer st (.marker m) = .ok st := by
  refine ⟨by decide, by decide, editLayer_marker_unchanged⟩

/-- C4 (the code at the failing input): rings of 0 and 1 vertices give `0`, but the two-point ring
`[[2,2],[1,1]]` is closed to three vertices, passes the test `coordinates.length > 2`, and the
result is whatever `turf.area(turf.polygon([coordinates]))` yields on that three-vertex ring,
an exception of `turf.polygon` included; the branch `return 0` is not taken. -/
theorem calculateArea_two_point_ring (Poly : Type) (T : Turf Poly) :
    calculateArea T [] = (.ok 0, []) ∧
    calculateArea T [⟨0, 2, 2⟩] = (.ok 0, [⟨0, 2, 2⟩]) ∧
    calculateArea T [⟨0, 2, 2⟩, ⟨1, 1, 1⟩] =
      ((T.polygon [[⟨0, 2, 2⟩, ⟨1, 1, 1⟩, ⟨0, 2, 2⟩]]).map T.area,
        [⟨0, 2, 2⟩, ⟨1, 1, 1⟩, ⟨0, 2, 2⟩]) := by
  have h0 : closeRing [] = [] := by decide
  have h1 : closeRing [⟨0, 2, 2⟩] = [⟨0, 2, 2⟩] := by decide
  have h2 : closeRing [⟨0, 2, 2⟩, ⟨1, 1, 1⟩] = [⟨0, 2, 2⟩, ⟨1, 1, 1⟩, ⟨0, 2, 2⟩] := by decide
  refine ⟨?_, ?_, ?_⟩
  · simp [calculateArea, h0]
  · simp [calculateArea, h1]
  · simp [calculateArea, h2]

/-- C5: as the component is mounted, after every finite sequence of draw events (create-marker
and delete-marker events among them) the store is the store before the sequence, so names
that were pairwise distinct are still pairwise distinct. -/
theorem runEvents_mounted_names_distinct (data : List GeoPoint) (s : State)
    (events : List DrawEvent) (hdistinct : (s.data.map GeoPoint.name).Nodup) :
    (runEvents mountedSetData data s events).data = s.data ∧
    ((runEvents mountedSetData data s events).data.map GeoPoint.name).Nodup := by
  have hstore : (runEvents mountedSetData data s events).data = s.data := by
    unfold runEvents
    induction events generalizing s with
    | nil => rfl
    | cons e rest ih =>
      simp only [List.foldl_cons]
      rw [ih (dispatch mountedSetData data s e).state
        (by rw [dispatch_mounted_store]; exact hdistinct)]
      exact dispatch_mounted_store data s e
  exact ⟨hstore, by rw [hstore]; exact hdistinct⟩

/-- A witness of C5: create a marker, delete the marker of `north`, create a marker. -/
theorem runEvents_mounted_names_distinct_witness :
    (sampleState.data.map GeoPoint.name).Nodup ∧
    (runEvents mountedSetData sampleStore sampleState
        [.created (markerAt 4 4), .deleted [markerAt 1 1], .created (markerAt 6 6)]).data =
      sampleState.data ∧
    ((runEvents mountedSetData sampleStore sampleState
        [.created (markerAt 4 4), .deleted [markerAt 1 1], .created (markerAt 6 6)]).data.map
      GeoPoint.name).Nodup :=
  ⟨by decide,
    runEvents_mounted_names_distinct sampleStore sampleState
      [.created (markerAt 4 4), .deleted [markerAt 1 1], .created (markerAt 6 6)] (by decide)⟩

/-- C7 (the code at the failing input): a ring of four distinct arrays whose first and last hold
the same values `[1, 1]` is not left unchanged: `!==` compares the arrays by identity, so the
first vertex is appended once more. -/
theorem closeRing_compares_identity :
    closeRing [⟨0, 1, 1⟩, ⟨1, 2, 2⟩, ⟨2, 3, 3⟩, ⟨3, 1, 1⟩] =
      [⟨0, 1, 1⟩, ⟨1, 2, 2⟩, ⟨2, 3, 3⟩, ⟨3, 1, 1⟩, ⟨0, 1, 1⟩] := by
  decide

/-- C8 (the code at the failing input): on the rendered store of three points, a create event
with a marker at `(10, 10)` ends with a `TypeError` at `setData(newData)`: the store keeps its
three points, no point `point4` is stored, and the ring keeps its entries. -/
theorem handleCreated_mounted_throws :
    handleCreated mountedSetData sampleStore sampleState (markerAt 10 10) =
      ⟨sampleState, some "TypeError: setData is not a function"⟩ ∧
    sampleState.data = [⟨"north", 1, 1⟩, ⟨"east", 2, 2⟩, ⟨"south", 3, 3⟩] ∧
    sampleState.polygonCoordinates = [⟨0, 1, 1⟩, ⟨1, 2, 2⟩, ⟨2, 3, 3⟩, ⟨0, 1, 1⟩] := by
  decide

/-- C9 (the code at the failing input): on the rendered store of three points, an edit event
with a marker at `(5, 5)`, the coordinate of no stored point, leaves the store and the ring as
they were but ends with a `TypeError` at `setData(newData)`. -/
theorem handleEdited_miss_mounted_throws :
    (∀ p ∈ sampleStore, ¬ (p.lat = 5 ∧ p.lon = 5)) ∧
    (handleEdited mountedSetData sampleStore sampleState [markerAt 5 5]).thrown =
      some "TypeError: setData is not a function" ∧
    (handleEdited mountedSetData sampleStore sampleState [markerAt 5 5]).state.data =
      [⟨"north", 1, 1⟩, ⟨"east", 2, 2⟩, ⟨"south", 3, 3⟩] ∧
    (handleEdited mountedSetData sampleStore sampleState [markerAt 5 5]).state.polygonCoordinates
      = [⟨0, 1, 1⟩, ⟨1, 2, 2⟩, ⟨2, 3, 3⟩, ⟨0, 1, 1⟩] := by
  decide

/-- C6: for every list of points whose names are pairwise distinct canonical directions, in any
order, `data.sort` with the order table yields a permutation of the input whose names are the
fixed sequence north, north-east, east, south-east, south, south-west, west, north-west
restricted to the names present. -/
theorem sortData_canonical (data : List GeoPoint)
    (hnodup : (data.map GeoPoint.name).Nodup)
    (hcanon : ∀ p ∈ data, p.name ∈ canonicalSequence) :
    (sortData data).Perm data ∧
      (sortData data).map GeoPoint.name =
        canonicalSequence.filter (fun n => decide (n ∈ data.map GeoPoint.name)) := by
  have hperm : (sortData data).Perm data := List.perm_insertionSort sortLe data
  refine ⟨hperm, ?_⟩
  have hmap : (sortData data).map rankOf = (data.map rankOf).insertionSort (· ≤ ·) := by
    apply List.map_insertionSort
    intro a ha b hb
    obtain ⟨x, hx⟩ := order_of_mem _ (hcanon a ha)
    obtain ⟨y, hy⟩ := order_of_mem _ (hcanon b hb)
    rw [sortLe_iff a b x y hx hy]
    simp [rankOf, hx, hy]
  have hsorted : ((sortData data).map rankOf).Sorted (· ≤ ·) := by
    rw [hmap]
    exact List.sorted_insertionSort _ _
  have hle : (sortData data).Pairwise (fun a b => rankOf a ≤ rankOf b) :=
    List.pairwise_map.mp hsorted
  have hne : (sortData data).Pairwise (fun a b => a.name ≠ b.name) :=
    List.pairwise_map.mp ((hperm.map GeoPoint.name).nodup_iff.mpr hnodup)
  have hlt : (sortData data).Pairwise (fun a b => rankLt a.name b.name) := by
    have hall := List.Pairwise.and_mem.mp (hle.and hne)
    refine hall.imp ?_
    intro a b hab
    obtain ⟨ha, hb, hle1, hne1⟩ := hab
    obtain ⟨x, hx⟩ := order_of_mem _ (hcanon a (hperm.subset ha))
    obtain ⟨y, hy⟩ := order_of_mem _ (hcanon b (hperm.subset hb))
    have hxy : x ≠ y := by
      intro hxy
      subst hxy
      exact hne1 (order_injective _ _ x hx hy)
    simp only [rankOf, hx, hy, Option.getD_some] at hle1
    simp only [rankLt, hx, hy]
    omega
  have hs1 : ((sortData data).map GeoPoint.name).Sorted rankLt := List.pairwise_map.mpr hlt
  have hs2 : (canonicalSequence.filter
      (fun n => decide (n ∈ data.map GeoPoint.name))).Sorted rankLt :=
    canonicalSequence_sorted.filter _
  have hnd1 : ((sortData data).map GeoPoint.name).Nodup :=
    (hperm.map GeoPoint.name).nodup_iff.mpr hnodup
  have hnd2 : (canonicalSequence.filter
      (fun n => decide (n ∈ data.map GeoPoint.name))).Nodup :=
    List.Nodup.filter _ (by decide)
  have hp : ((sortData data).map GeoPoint.name).Perm
      (canonicalSequence.filter (fun n => decide (n ∈ data.map GeoPoint.name))) := by
    rw [List.perm_ext_iff_of_nodup hnd1 hnd2]
    intro n
    rw [(hperm.map GeoPoint.name).mem_iff]
    simp only [List.mem_filter, decide_eq_true_eq]
    constructor
    · intro hn
      refine ⟨?_, hn⟩
      obtain ⟨p, hp, rfl⟩ := List.mem_map.mp hn
      exact hcanon p hp
    · exact fun hn => hn.2
  exact List.eq_of_perm_of_sorted hp hs1 hs2

/-- A witness of C6, and its scenario: the store `[east(1,1), north(2,2)]` is sorted to
`[north, east]`. -/
theorem sortData_canonical_witness :
    ((([⟨"east", 1, 1⟩, ⟨"north", 2, 2⟩] : List GeoPoint).map GeoPoint.name).Nodup ∧
      ∀ p ∈ ([⟨"east", 1, 1⟩, ⟨"north", 2, 2⟩] : List GeoPoint), p.name ∈ canonicalSequence) ∧
    ((sortData [⟨"east", 1, 1⟩, ⟨"north", 2, 2⟩]).Perm [⟨"east", 1, 1⟩, ⟨"north", 2, 2⟩] ∧
      (sortData [⟨"east", 1, 1⟩, ⟨"north", 2, 2⟩]).map GeoPoint.name =
        canonicalSequence.filter
          (fun n => decide (n ∈ ([⟨"east", 1, 1⟩, ⟨"north", 2, 2⟩] : List GeoPoint).map
            GeoPoint.name))) :=
  ⟨⟨by decide, by decide⟩,
    sortData_canonical [⟨"east", 1, 1⟩, ⟨"north", 2, 2⟩] (by decide) (by decide)⟩

/-- The scenario of C6 evaluated: `[east(1,1), north(2,2)]` becomes `[north(2,2), east(1,1)]`. -/
theorem sortData_scenario :
    sortData [⟨"east", 1, 1⟩, ⟨"north", 2, 2⟩] = [⟨"north", 2, 2⟩, ⟨"east", 1, 1⟩] := by
  decide

end AreaOfLand
